import Mathlib

/-!
Shallow embedding of `bottleneck/slow/reduce.py` (the pure-Python fallback
layer of the bottleneck library) and verification of its specification.

Modelling conventions:
* A floating-point value is `FVal`: either `FVal.nan` (the IEEE NaN) or
  `FVal.v q` with `q : ℚ` (an exact finite value; float arithmetic is
  idealised as exact rational arithmetic, which is faithful for the
  order/masking/selection logic the claims are about).
* A 1-d numpy array is a `List FVal`; a 2-d numpy array is `Arr2`
  (explicit column count plus a list of rows, with rectangularity stated
  as a hypothesis where a theorem needs it).
* Raising a Python exception is modelled by returning `Except PyErr`;
  in-place mutation (`replace`) is modelled by returning the new array
  contents.
* Dtype bookkeeping (the `astype` casts in `median`/`nanmedian`) is
  modelled where a claim is about dtypes (`NPVec`); casts are
  value-preserving in the exact-rational model.
-/

/-- Python exceptions raised by the module, at the granularity of the
exception class plus its message. -/
inductive PyErr where
  | typeError (msg : String)
  | valueError (msg : String)
deriving DecidableEq, Repr

/-- An idealised floating-point scalar: NaN or an exact finite value. -/
inductive FVal where
  | nan
  | v (q : ℚ)
deriving DecidableEq, Repr

/-- Truth value of `np.isnan` on a scalar. -/
def FVal.isNaN : FVal → Bool
  | .nan => true
  | .v _ => false

/-- Finite payload of a scalar, `none` for NaN. -/
def FVal.toRat? : FVal → Option ℚ
  | .nan => none
  | .v q => some q

/-- IEEE `==` on scalars as numpy computes it: NaN compares unequal to
everything, including itself. -/
def FVal.npEq : FVal → FVal → Bool
  | .v a, .v b => a == b
  | _, _ => false

/-- IEEE addition in the exact model: NaN propagates. -/
def FVal.add : FVal → FVal → FVal
  | .v a, .v b => .v (a + b)
  | _, _ => .nan

/-- Halving (used by the even-length median); NaN propagates. -/
def FVal.half : FVal → FVal
  | .v a => .v (a / 2)
  | .nan => .nan

/-- Embedding of `np.sort` on a 1-d float array: the finite values in
nondecreasing order, followed by all the NaNs (numpy sorts NaN to the
end). -/
def npSort (l : List FVal) : List FVal :=
  ((l.filterMap FVal.toRat?).insertionSort (· ≤ ·)).map FVal.v
    ++ List.replicate (l.countP FVal.isNaN) FVal.nan

/-- Embedding of `np.median` on a 1-d array: sort, then take the middle
element (odd length) or the mean of the two middle elements (even
length).  On an empty array numpy produces NaN (with a warning). -/
def npMedian1 (l : List FVal) : FVal :=
  let s := npSort l
  let n := s.length
  if n = 0 then .nan
  else if n % 2 = 1 then s.getD (n / 2) .nan
  else ((s.getD (n / 2 - 1) .nan).add (s.getD (n / 2) .nan)).half

/-- Embedding of `np.compress(1 - np.isnan(arr1d), arr1d)`: the non-NaN
entries, in order.  This is also what the spec calls removing the NaN
entries along the axis. -/
def removeNaN (l : List FVal) : List FVal :=
  l.filter (fun a => !a.isNaN)

/-- Embedding of the private `_nanmedian` (1-d only): mask out NaNs, sort
the survivors, return NaN if none survive, else their ordinary median. -/
def nanmedianCore (l : List FVal) : FVal :=
  let x := npSort (removeNaN l)
  if x.length = 0 then .nan else npMedian1 x

/-- Value computed by the `median` wrapper on a 1-d array.  The wrapper is
`np.median` followed by an `astype` back to the input dtype for inexact
inputs; the cast does not change the numeric value in the exact-rational
model, so at value level `median` is `np.median`.  (The dtype side is
modelled separately by `medianTyped`.) -/
def median1 (l : List FVal) : FVal :=
  npMedian1 l

/-- A 2-d numpy array: an explicit column count (part of the shape, so
that a zero-row array still knows its width) and the list of rows.
Rectangularity (`∀ r ∈ rows, r.length = ncol`) is a hypothesis of the
theorems that need it. -/
structure Arr2 where
  ncol : ℕ
  rows : List (List FVal)
deriving DecidableEq, Repr

/-- Column `j` of a 2-d array (entries `rows[i][j]`). -/
def Arr2.col (a : Arr2) (j : ℕ) : List FVal :=
  a.rows.map (fun r => r.getD j .nan)

/-- All columns of a 2-d array, in order. -/
def Arr2.cols (a : Arr2) : List (List FVal) :=
  (List.range a.ncol).map a.col

/-- The 1-d slices of a 2-d array along the reduction axis: for `axis = 0`
numpy reduces over the rows, so each slice is a column; for `axis = 1`
each slice is a row. -/
def axisSlices (a : Arr2) (axis : Fin 2) : List (List FVal) :=
  if axis = 1 then a.rows else a.cols

/-- Embedding of `scipy_nanmedian` on a 2-d input.  `shape.pop(axis)`
leaves `[ncol]` for `axis = 0` and `[nrows]` for `axis = 1`; if the
remaining shape contains `0` the Feb-2011 patch returns `np.empty(shape)`
(an empty result), otherwise `np.apply_along_axis(_nanmedian, axis, x)`
applies `_nanmedian` to every 1-d slice along the axis. -/
def scipyNanmedian2 (x : Arr2) (axis : Fin 2) : List FVal :=
  if axis = 1 then
    if x.rows.length = 0 then [] else x.rows.map nanmedianCore
  else
    if x.ncol = 0 then [] else x.cols.map nanmedianCore

/-- Value level of the `nanmedian` wrapper on a 2-d array with an explicit
axis.  For a 2-d input `scipy_nanmedian` returns an ndarray, so the
`hasattr` branch is skipped, and the `astype` back to an inexact input
dtype does not change numeric values in the exact model. -/
def nanmedian2 (a : Arr2) (axis : Fin 2) : List FVal :=
  scipyNanmedian2 a axis

/-- Value level of the `nanmedian` wrapper on a 1-d array (`axis = None`
ravels, `axis = 0` is the only axis; both take the same path).  For a 1-d
input `scipy_nanmedian` applies `_nanmedian` to the single slice and
unwraps the 0-d result to a float; the wrapper's dtype coercions are
value-preserving. -/
def nanmedian1 (l : List FVal) : FVal :=
  nanmedianCore l

/-- The numpy dtypes this layer distinguishes; `isInexact` is
`issubclass(dtype.type, np.inexact)`. -/
inductive Dtype where
  | float32
  | float64
  | int64
deriving DecidableEq, Repr

/-- Truth value of `issubclass(dtype.type, np.inexact)`. -/
def Dtype.isInexact : Dtype → Bool
  | .float32 => true
  | .float64 => true
  | .int64 => false

/-- A 1-d numpy array with its dtype. -/
structure NPVec where
  dtype : Dtype
  data : List FVal
deriving DecidableEq, Repr

/-- A numpy scalar (0-d result) with its dtype. -/
structure NPScalar where
  dtype : Dtype
  val : FVal
deriving DecidableEq, Repr

/-- Embedding of `y.astype(d)`: a dtype cast, value-preserving in the
exact-rational model. -/
def NPScalar.astype (s : NPScalar) (d : Dtype) : NPScalar :=
  ⟨d, s.val⟩

/-- Embedding of the `median` wrapper on a 1-d array, with dtype
bookkeeping.  `npRule` models the external library's result-dtype rule
for `np.median` (it varies across numpy versions, so the theorems
quantify over it): `np.median` returns value `npMedian1` at dtype
`npRule arr.dtype`, and the wrapper casts back to `arr.dtype` when the
dtypes differ and the input dtype is inexact. -/
def medianTyped (npRule : Dtype → Dtype) (arr : NPVec) : NPScalar :=
  let y : NPScalar := ⟨npRule arr.dtype, npMedian1 arr.data⟩
  if y.dtype ≠ arr.dtype ∧ arr.dtype.isInexact then y.astype arr.dtype else y

/-- Truncation of Python `int()` applied to a finite float: toward zero. -/
def pyTrunc (q : ℚ) : ℤ :=
  if 0 ≤ q then ⌊q⌋ else ⌈q⌉

/-- A Python object passed as the `arr` argument of `replace`, as far as
the `type(arr) is not np.ndarray` check can distinguish it: a base-class
`np.ndarray` instance, an instance of an ndarray subclass such as
`np.matrix`, or a plain Python list (an array-like that is not an
array). -/
inductive PyObj where
  | ndarray (a : NPVec)
  | matrix (a : NPVec)
  | pylist (l : List FVal)
deriving DecidableEq, Repr

/-- Truth value of `type(arr) is np.ndarray`: an exact type comparison,
false for subclass instances such as `np.matrix`. -/
def typeIsNdarray : PyObj → Bool
  | .ndarray _ => true
  | _ => false

/-- Truth value of `isinstance(arr, np.ndarray)`: true also for subclass
instances such as `np.matrix`. -/
def isinstanceNdarray : PyObj → Bool
  | .ndarray _ => true
  | .matrix _ => true
  | .pylist _ => false

/-- Embedding of the mask-and-write tail of `replace`: `mask = isnan(arr)`
when `old != old`, else `mask = (arr == old)` with IEEE equality; then
`np.putmask(arr, mask, new)` writes `new` at every masked position in one
pass. -/
def putmaskReplace (a : NPVec) (old new : FVal) : NPVec :=
  let mask := if old.isNaN then a.data.map FVal.isNaN
    else a.data.map (fun x => x.npEq old)
  ⟨a.dtype, List.zipWith (fun x m => if m then new else x) a.data mask⟩

/-- Embedding of `replace(arr, old, new)`.  The in-place mutation is
modelled by returning the new array contents; raising is modelled by
`Except.error`.  `int(v)` on NaN raises Python's float-NaN conversion
`ValueError`, modelled in the `.nan` branch of the `new` check. -/
def replace (arr : PyObj) (old new : FVal) : Except PyErr NPVec :=
  match arr with
  | .ndarray a =>
    if !a.dtype.isInexact then
      match old with
      | .nan => .ok a
      | .v qo =>
        if (pyTrunc qo : ℚ) ≠ qo then
          .error (.valueError "Cannot safely cast `old` to int.")
        else
          match new with
          | .nan => .error (.valueError "cannot convert float NaN to integer")
          | .v qn =>
            if (pyTrunc qn : ℚ) ≠ qn then
              .error (.valueError "Cannot safely cast `new` to int.")
            else .ok (putmaskReplace a old new)
    else .ok (putmaskReplace a old new)
  | _ => .error (.typeError "`arr` must be a numpy array.")

/-- First index of the minimum among the non-NaN entries of a list,
`none` when there is none. -/
def argminF : List FVal → Option ℕ
  | [] => none
  | .nan :: xs => (argminF xs).map (· + 1)
  | .v q :: xs =>
    match argminF xs with
    | none => some 0
    | some j =>
      match xs.getD j .nan with
      | .nan => some 0
      | .v q' => if q' < q then some (j + 1) else some 0

/-- First index of the maximum among the non-NaN entries of a list,
`none` when there is none. -/
def argmaxF : List FVal → Option ℕ
  | [] => none
  | .nan :: xs => (argmaxF xs).map (· + 1)
  | .v q :: xs =>
    match argmaxF xs with
    | none => some 0
    | some j =>
      match xs.getD j .nan with
      | .nan => some 0
      | .v q' => if q < q' then some (j + 1) else some 0

/-- Modelled from the spec: `np.nanargmin` on a 1-d array is an external
library call (numpy), not code of this repository.  Per the spec it
returns the index of the minimum ignoring NaNs and, on an all-NaN slice,
emits a warning and returns an implementation-defined index (modelled
here as 0).  The first component is the list of warnings the call
emits. -/
def npNanargmin1 (l : List FVal) : List String × ℕ :=
  match argminF l with
  | some i => ([], i)
  | none => (["All-NaN slice encountered"], 0)

/-- Modelled from the spec: `np.nanargmax` on a 1-d array, symmetric to
`npNanargmin1`. -/
def npNanargmax1 (l : List FVal) : List String × ℕ :=
  match argmaxF l with
  | some i => ([], i)
  | none => (["All-NaN slice encountered"], 0)

/-- Embedding of the `nanargmin` wrapper: it runs `np.nanargmin` inside
`warnings.catch_warnings()` with `simplefilter("ignore")`, so the
warnings are discarded and only the index is returned. -/
def nanargmin1 (l : List FVal) : ℕ :=
  (npNanargmin1 l).2

/-- Embedding of the `nanargmax` wrapper, symmetric to `nanargmin1`. -/
def nanargmax1 (l : List FVal) : ℕ :=
  (npNanargmax1 l).2

/-- A 2-d numpy array of finite floats (the `nn` inputs carry no NaNs in
the claims): explicit column count plus rows. -/
structure Arr2Q where
  ncol : ℕ
  rows : List (List ℚ)
deriving DecidableEq, Repr

/-- Column `j` of a 2-d rational array. -/
def Arr2Q.col (a : Arr2Q) (j : ℕ) : List ℚ :=
  a.rows.map (fun r => r.getD j 0)

/-- All columns of a 2-d rational array, in order. -/
def Arr2Q.cols (a : Arr2Q) : List (List ℚ) :=
  (List.range a.ncol).map a.col

/-- A numpy array argument of `nn` as far as the `ndim` checks can
distinguish it: 1-d or 2-d. -/
inductive NDQ where
  | d1 (l : List ℚ)
  | d2 (a : Arr2Q)
deriving DecidableEq, Repr

/-- Embedding of `(arr - arr0) ** 2` for 2-d `arr` of shape `(r, c)` and
1-d `arr0` of length `n`, under numpy broadcasting of `(r, c)` against
`(n,)`: elementwise when `n = c`, the single value of `arr0` broadcast
when `n = 1`, the single column of `arr` broadcast when `c = 1`; any
other combination raises the broadcast `ValueError`. -/
def sqDiffAxis1 (a : Arr2Q) (v : List ℚ) : Except PyErr Arr2Q :=
  if a.ncol = v.length then
    .ok ⟨a.ncol, a.rows.map (fun r => List.zipWith (fun x y => (x - y) ^ 2) r v)⟩
  else if v.length = 1 then
    .ok ⟨a.ncol, a.rows.map (fun r => r.map (fun x => (x - v.headD 0) ^ 2))⟩
  else if a.ncol = 1 then
    .ok ⟨v.length, a.rows.map (fun r => v.map (fun y => (r.headD 0 - y) ^ 2))⟩
  else .error (.valueError "operands could not be broadcast together")

/-- Embedding of `(arr - arr0.reshape(-1, 1)) ** 2` for 2-d `arr` of shape
`(r, c)` and `arr0` reshaped to `(n, 1)`, under numpy broadcasting of
`(r, c)` against `(n, 1)`: row `i` gets `arr0[i]` subtracted throughout
when `n = r`, the single value broadcast when `n = 1`, the single row of
`arr` broadcast when `r = 1`; otherwise the broadcast `ValueError`. -/
def sqDiffAxis0 (a : Arr2Q) (v : List ℚ) : Except PyErr Arr2Q :=
  if a.rows.length = v.length then
    .ok ⟨a.ncol, List.zipWith (fun r y => r.map (fun x => (x - y) ^ 2)) a.rows v⟩
  else if v.length = 1 then
    .ok ⟨a.ncol, a.rows.map (fun r => r.map (fun x => (x - v.headD 0) ^ 2))⟩
  else if a.rows.length = 1 then
    .ok ⟨a.ncol, v.map (fun y => (a.rows.headD []).map (fun x => (x - y) ^ 2))⟩
  else .error (.valueError "operands could not be broadcast together")

/-- Embedding of `d.sum(axis=1)`: one sum per row. -/
def sumAxis1 (d : Arr2Q) : List ℚ :=
  d.rows.map (fun r => r.sum)

/-- Embedding of `d.sum(axis=0)`: one sum per column. -/
def sumAxis0 (d : Arr2Q) : List ℚ :=
  (List.range d.ncol).map (fun j => (d.rows.map (fun r => r.getD j 0)).sum)

/-- Embedding of `np.argmin` on a 1-d array: the first index attaining
the minimum; `none` for the empty array (where numpy raises). -/
def argminList : List ℚ → Option ℕ
  | [] => none
  | x :: xs =>
    match argminList xs with
    | none => some 0
    | some j => if xs.getD j 0 < x then some (j + 1) else some 0

/-- Embedding of the shared tail of `nn` after `d = d.sum(axis)`: take
`idx = np.argmin(d)` (which raises `ValueError` on an empty sequence) and
return `(np.sqrt(d[idx]), idx)`, with the square root as the exact real
square root. -/
noncomputable def nnFinish (s : List ℚ) : Except PyErr (ℝ × ℕ) :=
  match argminList s with
  | none => .error (.valueError "attempt to get argmin of an empty sequence")
  | some idx => .ok (Real.sqrt ((s.getD idx 0 : ℚ) : ℝ), idx)

/-- Embedding of `nn(arr, arr0, axis)`: validate `ndim` of both inputs,
square the broadcast difference per the chosen axis, sum along the axis,
then `argmin` and square root via `nnFinish`. -/
noncomputable def nn (arr arr0 : NDQ) (axis : ℤ) : Except PyErr (ℝ × ℕ) :=
  match arr with
  | .d1 _ => .error (.valueError "`arr` must be 2d")
  | .d2 a =>
    match arr0 with
    | .d2 _ => .error (.valueError "`arr0` must be 1d")
    | .d1 v =>
      if axis = 1 then
        match sqDiffAxis1 a v with
        | .error e => .error e
        | .ok d => nnFinish (sumAxis1 d)
      else if axis = 0 then
        match sqDiffAxis0 a v with
        | .error e => .error e
        | .ok d => nnFinish (sumAxis0 d)
      else .error (.valueError "`axis` must be 0 or 1.")

/-- Squared Euclidean distance between a candidate and the query point,
as the spec describes it (pairwise squared differences, summed). -/
def sqDist (p q : List ℚ) : ℚ :=
  (List.zipWith (fun x y => (x - y) ^ 2) p q).sum

/-- The candidate slices of the `nn` points array: rows for `axis = 1`,
columns for `axis = 0`. -/
def nnCandidates (a : Arr2Q) (axis : ℤ) : List (List ℚ) :=
  if axis = 1 then a.rows else a.cols

lemma filterMap_toRat_map_v (qs : List ℚ) :
    (qs.map FVal.v).filterMap FVal.toRat? = qs := by
  induction qs with
  | nil => rfl
  | cons q t ih => simp [List.filterMap_cons, FVal.toRat?, ih]

lemma filterMap_toRat_replicate_nan (n : ℕ) :
    (List.replicate n FVal.nan).filterMap FVal.toRat? = [] := by
  induction n with
  | zero => rfl
  | succ n ih => simp [List.replicate_succ, List.filterMap_cons, FVal.toRat?, ih]

lemma countP_isNaN_map_v (qs : List ℚ) :
    (qs.map FVal.v).countP FVal.isNaN = 0 := by
  simp [List.countP_eq_zero, FVal.isNaN]

lemma countP_isNaN_replicate (n : ℕ) :
    (List.replicate n FVal.nan).countP FVal.isNaN = n := by
  induction n with
  | zero => rfl
  | succ n ih => simp [List.replicate_succ, List.countP_cons, FVal.isNaN, ih]

lemma npSort_idem (l : List FVal) : npSort (npSort l) = npSort l := by
  unfold npSort
  rw [List.filterMap_append, filterMap_toRat_map_v, filterMap_toRat_replicate_nan,
    List.append_nil, List.countP_append, countP_isNaN_map_v, countP_isNaN_replicate,
    Nat.zero_add, List.Sorted.insertionSort_eq (List.sorted_insertionSort _ _)]

lemma npMedian1_npSort (l : List FVal) : npMedian1 (npSort l) = npMedian1 l := by
  simp only [npMedian1, npSort_idem]

lemma nanmedianCore_eq_median_removeNaN (l : List FVal)
    (h : ∃ x ∈ l, x.isNaN = false) :
    nanmedianCore l = npMedian1 (removeNaN l) := by
  obtain ⟨x, hx, hnx⟩ := h
  obtain ⟨q, rfl⟩ : ∃ q, x = FVal.v q := by
    cases x with
    | nan => simp [FVal.isNaN] at hnx
    | v q => exact ⟨q, rfl⟩
  have hmem : FVal.v q ∈ removeNaN l := by
    simp [removeNaN, List.mem_filter, hx, FVal.isNaN]
  have hmem2 : FVal.v q ∈ npSort (removeNaN l) := by
    refine List.mem_append_left _ ?_
    refine List.mem_map.2 ⟨q, ?_, rfl⟩
    refine (List.mem_insertionSort _).2 ?_
    exact List.mem_filterMap.2 ⟨FVal.v q, hmem, rfl⟩
  have hne : (npSort (removeNaN l)).length ≠ 0 := by
    intro h0
    rw [List.length_eq_zero] at h0
    rw [h0] at hmem2
    exact (List.not_mem_nil _ hmem2)
  simp only [nanmedianCore]
  rw [if_neg hne]
  exact npMedian1_npSort _

lemma scipyNanmedian2_eq_map (a : Arr2) (axis : Fin 2) :
    scipyNanmedian2 a axis = (axisSlices a axis).map nanmedianCore := by
  fin_cases axis
  · by_cases h : a.ncol = 0
    · simp [scipyNanmedian2, axisSlices, h, Arr2.cols]
    · simp [scipyNanmedian2, axisSlices, h]
  · by_cases h : a.rows = []
    · simp [scipyNanmedian2, axisSlices, h]
    · simp [scipyNanmedian2, axisSlices, h, List.length_eq_zero]

lemma getD_map_lt {α β : Type} (f : α → β) (l : List α) (i : ℕ)
    (h : i < l.length) (d : β) (e : α) :
    (l.map f).getD i d = f (l.getD i e) := by
  rw [List.getD_eq_getElem _ _ (by simpa using h), List.getD_eq_getElem _ _ h]
  simp

lemma nanmedianCore_allnan {s : List FVal} (h : ∀ x ∈ s, x.isNaN = true) :
    nanmedianCore s = FVal.nan := by
  have h0 : removeNaN s = [] := by
    simp only [removeNaN, List.filter_eq_nil_iff]
    intro a ha
    simp [h a ha]
  simp [nanmedianCore, h0, npSort]

/-- C1: for every array containing at least one non-NaN value along the
reduction axis, `nanmedian` equals `median` applied to the same data with
the NaN entries removed along that axis (survivors masked, sorted, and
the ordinary median of the survivors taken).  Stated for 1-d arrays and
for 2-d arrays along either axis (slice-wise). -/
theorem nanmedian_eq_median_of_dropped_nans :
    (∀ l : List FVal, (∃ x ∈ l, x.isNaN = false) →
      nanmedian1 l = median1 (removeNaN l)) ∧
    (∀ (a : Arr2) (axis : Fin 2),
      (∀ s ∈ axisSlices a axis, ∃ x ∈ s, x.isNaN = false) →
      nanmedian2 a axis = (axisSlices a axis).map (fun s => median1 (removeNaN s))) := by
  constructor
  · intro l h
    exact nanmedianCore_eq_median_removeNaN l h
  · intro a axis h
    rw [nanmedian2, scipyNanmedian2_eq_map]
    exact List.map_congr_left (fun s hs => nanmedianCore_eq_median_removeNaN s (h s hs))

/-- Witness for C1 at the concrete inputs `[1.0, NaN, 3.0]` (1-d) and
`[[1.0, NaN], [NaN, 4.0]]` with `axis = 1` (2-d). -/
theorem nanmedian_eq_median_of_dropped_nans_witness :
    nanmedian1 [FVal.v 1, FVal.nan, FVal.v 3]
        = median1 (removeNaN [FVal.v 1, FVal.nan, FVal.v 3]) ∧
    nanmedian2 ⟨2, [[FVal.v 1, FVal.nan], [FVal.nan, FVal.v 4]]⟩ 1
        = (axisSlices ⟨2, [[FVal.v 1, FVal.nan], [FVal.nan, FVal.v 4]]⟩ 1).map
            (fun s => median1 (removeNaN s)) := by
  constructor
  · exact nanmedian_eq_median_of_dropped_nans.1 _ ⟨FVal.v 1, by simp, rfl⟩
  · refine nanmedian_eq_median_of_dropped_nans.2 _ 1 ?_
    intro s hs
    simp only [axisSlices, if_pos rfl] at hs
    fin_cases hs
    · exact ⟨FVal.v 1, by simp, rfl⟩
    · exact ⟨FVal.v 4, by simp, rfl⟩

/-- C2: `nanmedian` on a 2-d array has the reduced shape (one entry per
slice along the reduction axis, so a zero-length reduction axis yields an
empty-slice result of the correct shape rather than failing — the
embedding is total, so no exception is raised), and every position whose
slice is entirely NaN (which includes every slice of length zero) holds
NaN. -/
theorem nanmedian_allnan_or_empty_axis (a : Arr2) (axis : Fin 2) :
    (nanmedian2 a axis).length = (axisSlices a axis).length ∧
    ∀ i < (axisSlices a axis).length,
      (∀ x ∈ (axisSlices a axis).getD i [], x.isNaN = true) →
      (nanmedian2 a axis).getD i FVal.nan = FVal.nan := by
  constructor
  · rw [nanmedian2, scipyNanmedian2_eq_map, List.length_map]
  · intro i hi hall
    rw [nanmedian2, scipyNanmedian2_eq_map, getD_map_lt nanmedianCore _ i hi _ []]
    exact nanmedianCore_allnan hall

/-- Witness for C2: a 2-d array with an all-NaN row reduced along
`axis = 1`, and hypotheses discharged at a concrete index. -/
theorem nanmedian_allnan_or_empty_axis_witness :
    ((nanmedian2 ⟨2, [[FVal.nan, FVal.nan], [FVal.v 1, FVal.v 2]]⟩ 1).length
        = (axisSlices ⟨2, [[FVal.nan, FVal.nan], [FVal.v 1, FVal.v 2]]⟩ 1).length) ∧
    (nanmedian2 ⟨2, [[FVal.nan, FVal.nan], [FVal.v 1, FVal.v 2]]⟩ 1).getD 0 FVal.nan
        = FVal.nan := by
  refine ⟨(nanmedian_allnan_or_empty_axis _ 1).1, ?_⟩
  refine (nanmedian_allnan_or_empty_axis _ 1).2 0 (by simp [axisSlices]) ?_
  intro x hx
  have hgd : (axisSlices (⟨2, [[FVal.nan, FVal.nan], [FVal.v 1, FVal.v 2]]⟩ : Arr2) 1).getD 0 []
      = [FVal.nan, FVal.nan] := rfl
  rw [hgd] at hx
  simp only [List.mem_cons, List.not_mem_nil, or_false, or_self] at hx
  subst hx
  rfl

/-- C3: on a floating-point array, `replace` sets every position whose
element matches `old` (NaN-aware equality when `old` is NaN, IEEE
equality otherwise) to `new`, and leaves every non-matching position
unchanged. -/
theorem replace_writes_matches_only (a : NPVec) (old new : FVal)
    (h : a.dtype.isInexact = true) :
    replace (.ndarray a) old new =
      .ok ⟨a.dtype, a.data.map
        (fun x => if (if old.isNaN then x.isNaN else x.npEq old) then new else x)⟩ := by
  simp only [replace, h, Bool.not_true, Bool.false_eq_true, if_false]
  by_cases hn : old.isNaN = true
  · simp [putmaskReplace, hn, List.zipWith_map_right, List.zipWith_same]
  · simp [putmaskReplace, hn, List.zipWith_map_right, List.zipWith_same]

/-- Witness for C3 at the spec's example:
`replace(array([1.0, NaN, 3.0]), NaN, 0.0)` yields `[1.0, 0.0, 3.0]`. -/
theorem replace_writes_matches_only_witness :
    replace (.ndarray ⟨.float64, [FVal.v 1, FVal.nan, FVal.v 3]⟩) FVal.nan (FVal.v 0)
      = .ok ⟨.float64, [FVal.v 1, FVal.v 0, FVal.v 3]⟩ := by
  have h := replace_writes_matches_only
    ⟨.float64, [FVal.v 1, FVal.nan, FVal.v 3]⟩ FVal.nan (FVal.v 0) rfl
  simpa [FVal.isNaN] using h

/-- C7: for a floating-point input the `median` wrapper returns the
ordinary percentile-50 median value with the result dtype equal to the
input dtype, whatever result dtype the underlying library's `np.median`
produces (the wrapper casts back when it differs). -/
theorem median_preserves_inexact_dtype (npRule : Dtype → Dtype) (arr : NPVec)
    (h : arr.dtype.isInexact = true) :
    (medianTyped npRule arr).dtype = arr.dtype ∧
    (medianTyped npRule arr).val = npMedian1 arr.data := by
  by_cases hd : npRule arr.dtype = arr.dtype
  · simp [medianTyped, hd, NPScalar.astype]
  · simp [medianTyped, hd, h, NPScalar.astype]

/-- Witness for C7: a float32 input with a dtype rule that reports
float64 for every input, so the cast-back branch fires. -/
theorem median_preserves_inexact_dtype_witness :
    (medianTyped (fun _ => Dtype.float64) ⟨Dtype.float32, [FVal.v 1, FVal.v 2]⟩).dtype
        = Dtype.float32 ∧
    (medianTyped (fun _ => Dtype.float64) ⟨Dtype.float32, [FVal.v 1, FVal.v 2]⟩).val
        = npMedian1 [FVal.v 1, FVal.v 2] :=
  median_preserves_inexact_dtype (fun _ => Dtype.float64)
    ⟨Dtype.float32, [FVal.v 1, FVal.v 2]⟩ rfl

/-- C8: `replace` called on anything whose type is not exactly
`np.ndarray` raises `TypeError` — for every `old`/`new`, including ones
that would otherwise raise a different error, so the type check comes
first and nothing is written. -/
theorem replace_nonarray_raises (arr : PyObj) (old new : FVal)
    (h : typeIsNdarray arr = false) :
    replace arr old new = .error (.typeError "`arr` must be a numpy array.") := by
  cases arr with
  | ndarray a => simp [typeIsNdarray] at h
  | matrix a => rfl
  | pylist l => rfl

/-- Witness for C8: a plain Python list, with `old` non-integral and
`new` NaN (arguments that would raise other errors later). -/
theorem replace_nonarray_raises_witness :
    replace (.pylist [FVal.v 1]) (FVal.v (1/2)) FVal.nan
      = .error (.typeError "`arr` must be a numpy array.") :=
  replace_nonarray_raises (.pylist [FVal.v 1]) (FVal.v (1/2)) FVal.nan rfl

/-- C10: an instance of an ndarray subclass such as `np.matrix` is an
`isinstance` ndarray, yet `replace` rejects it with `TypeError`, because
`type(arr) is np.ndarray` is an exact type comparison. -/
theorem replace_rejects_ndarray_subclass (a : NPVec) (old new : FVal) :
    isinstanceNdarray (.matrix a) = true ∧
    typeIsNdarray (.matrix a) = false ∧
    replace (.matrix a) old new = .error (.typeError "`arr` must be a numpy array.") :=
  ⟨rfl, rfl, rfl⟩

lemma argminF_eq_none {l : List FVal} (h : ∀ x ∈ l, x.isNaN = true) :
    argminF l = none := by
  induction l with
  | nil => rfl
  | cons x xs ih =>
    cases x with
    | nan => simp [argminF, ih (fun y hy => h y (List.mem_cons_of_mem _ hy))]
    | v q =>
      have := h (FVal.v q) (List.mem_cons_self _ _)
      simp [FVal.isNaN] at this

lemma argmaxF_eq_none {l : List FVal} (h : ∀ x ∈ l, x.isNaN = true) :
    argmaxF l = none := by
  induction l with
  | nil => rfl
  | cons x xs ih =>
    cases x with
    | nan => simp [argmaxF, ih (fun y hy => h y (List.mem_cons_of_mem _ hy))]
    | v q =>
      have := h (FVal.v q) (List.mem_cons_self _ _)
      simp [FVal.isNaN] at this

/-- C9: on a nonempty all-NaN input the underlying library call emits a
warning, the wrappers discard it (so neither `nanargmin` nor `nanargmax`
raises), and each returns the library's implementation-defined result,
which is a valid index into the input. -/
theorem nanarg_allnan_suppresses_and_returns (l : List FVal) (h0 : l ≠ [])
    (h : ∀ x ∈ l, x.isNaN = true) :
    (npNanargmin1 l).1 ≠ [] ∧ nanargmin1 l = (npNanargmin1 l).2 ∧
      nanargmin1 l < l.length ∧
    (npNanargmax1 l).1 ≠ [] ∧ nanargmax1 l = (npNanargmax1 l).2 ∧
      nanargmax1 l < l.length := by
  have hmin := argminF_eq_none h
  have hmax := argmaxF_eq_none h
  have hlen : 0 < l.length := List.length_pos.2 h0
  exact ⟨by simp [npNanargmin1, hmin], rfl,
    by simp [nanargmin1, npNanargmin1, hmin, hlen],
    by simp [npNanargmax1, hmax], rfl,
    by simp [nanargmax1, npNanargmax1, hmax, hlen]⟩

/-- Witness for C9 at the all-NaN input `[NaN, NaN]`. -/
theorem nanarg_allnan_suppresses_and_returns_witness :
    (npNanargmin1 [FVal.nan, FVal.nan]).1 ≠ [] ∧
    nanargmin1 [FVal.nan, FVal.nan] = (npNanargmin1 [FVal.nan, FVal.nan]).2 ∧
    nanargmin1 [FVal.nan, FVal.nan] < 2 ∧
    (npNanargmax1 [FVal.nan, FVal.nan]).1 ≠ [] ∧
    nanargmax1 [FVal.nan, FVal.nan] = (npNanargmax1 [FVal.nan, FVal.nan]).2 ∧
    nanargmax1 [FVal.nan, FVal.nan] < 2 := by
  have h := nanarg_allnan_suppresses_and_returns [FVal.nan, FVal.nan] (by simp)
    (by intro x hx; fin_cases hx <;> rfl)
  simpa using h

/-- C4 (amended): on a non-floating-point array, `replace` with NaN `old`
is a no-op; a non-NaN `old` that is not exactly an integer raises the
unsafe-cast error for `old`; with an integral `old`, a NaN `new` raises
Python's float-NaN integer-conversion `ValueError` (from `int(new)`), not
the unsafe-cast error; and a non-NaN non-integral `new` raises the
unsafe-cast error for `new`.  Raising is modelled as `Except.error`, so
in every raising case no element is written and the array is
unchanged. -/
theorem replace_nonfloat_cases (a : NPVec) (old new : FVal)
    (h : a.dtype.isInexact = false) :
    (old.isNaN = true → replace (.ndarray a) old new = .ok a) ∧
    (∀ qo : ℚ, old = .v qo → (pyTrunc qo : ℚ) ≠ qo →
      replace (.ndarray a) old new
        = .error (.valueError "Cannot safely cast `old` to int.")) ∧
    (∀ qo : ℚ, old = .v qo → (pyTrunc qo : ℚ) = qo → new = .nan →
      replace (.ndarray a) old new
        = .error (.valueError "cannot convert float NaN to integer")) ∧
    (∀ qo qn : ℚ, old = .v qo → (pyTrunc qo : ℚ) = qo → new = .v qn →
      (pyTrunc qn : ℚ) ≠ qn →
      replace (.ndarray a) old new
        = .error (.valueError "Cannot safely cast `new` to int.")) := by
  refine ⟨?_, ?_, ?_, ?_⟩
  · intro hn
    cases old with
    | nan => simp [replace, h]
    | v q => simp [FVal.isNaN] at hn
  · rintro qo rfl hne
    simp [replace, h, hne]
  · rintro qo rfl heq rfl
    simp [replace, h, heq]
  · rintro qo qn rfl heq rfl hne
    simp [replace, h, heq, hne]

/-- Witness for C4 (amended): an int array with the non-integral
`old = 1/2` raises the unsafe-cast error for `old`. -/
theorem replace_nonfloat_cases_witness :
    replace (.ndarray ⟨.int64, [FVal.v 1]⟩) (FVal.v (1/2)) (FVal.v 0)
      = .error (.valueError "Cannot safely cast `old` to int.") :=
  (replace_nonfloat_cases ⟨.int64, [FVal.v 1]⟩ (FVal.v (1/2)) (FVal.v 0) rfl).2.1
    (1/2) rfl (by norm_num [pyTrunc])

/-- Counterexample to C4 as stated: on an int array with integral
`old = 1.0` and `new = NaN` — a `new` that is not exactly representable
as an integer — `replace` raises the float-NaN integer-conversion
`ValueError`, which is not the unsafe-cast error the claim names. -/
theorem replace_int_nan_new_counterexample :
    replace (.ndarray ⟨.int64, [FVal.v 1]⟩) (FVal.v 1) FVal.nan
      = .error (.valueError "cannot convert float NaN to integer") ∧
    (PyErr.valueError "cannot convert float NaN to integer"
      ≠ PyErr.valueError "Cannot safely cast `new` to int.") := by
  constructor
  · norm_num [replace, pyTrunc, Dtype.isInexact]
  · decide


lemma argminList_cons_of_none {xs : List ℚ} (x : ℚ) (h : argminList xs = none) :
    argminList (x :: xs) = some 0 := by
  rw [argminList, h]

lemma argminList_cons_of_some {xs : List ℚ} (x : ℚ) {j : ℕ}
    (h : argminList xs = some j) :
    argminList (x :: xs) = if xs.getD j 0 < x then some (j + 1) else some 0 := by
  rw [argminList, h]

lemma argminList_eq_none_iff (l : List ℚ) : argminList l = none ↔ l = [] := by
  cases l with
  | nil => simp [argminList]
  | cons x xs =>
    cases hxs : argminList xs with
    | none => simp [argminList_cons_of_none x hxs]
    | some j =>
      rw [argminList_cons_of_some x hxs]
      split <;> simp

lemma argminList_lt_length {l : List ℚ} {i : ℕ} (h : argminList l = some i) :
    i < l.length := by
  induction l generalizing i with
  | nil => simp [argminList] at h
  | cons x xs ih =>
    cases hxs : argminList xs with
    | none =>
      rw [argminList_cons_of_none x hxs] at h
      injection h with h'
      subst h'
      simp
    | some j =>
      rw [argminList_cons_of_some x hxs] at h
      by_cases hlt : xs.getD j 0 < x
      · rw [if_pos hlt] at h
        injection h with h'
        subst h'
        simpa using Nat.succ_lt_succ (ih hxs)
      · rw [if_neg hlt] at h
        injection h with h'
        subst h'
        simp

lemma argminList_is_min {l : List ℚ} {i : ℕ} (h : argminList l = some i) :
    ∀ j < l.length, l.getD i 0 ≤ l.getD j 0 := by
  induction l generalizing i with
  | nil => simp [argminList] at h
  | cons x xs ih =>
    cases hxs : argminList xs with
    | none =>
      rw [argminList_cons_of_none x hxs] at h
      injection h with h'
      subst h'
      have hnil : xs = [] := (argminList_eq_none_iff xs).1 hxs
      subst hnil
      intro j hj
      have hj0 : j = 0 := by simp at hj; omega
      subst hj0
      simp
    | some j' =>
      rw [argminList_cons_of_some x hxs] at h
      by_cases hlt : xs.getD j' 0 < x
      · rw [if_pos hlt] at h
        injection h with h'
        subst h'
        intro j hj
        cases j with
        | zero =>
          simpa [List.getD_cons_succ, List.getD_cons_zero] using le_of_lt hlt
        | succ k =>
          simp only [List.getD_cons_succ]
          exact ih hxs k (by simpa using hj)
      · rw [if_neg hlt] at h
        injection h with h'
        subst h'
        intro j hj
        cases j with
        | zero => simp
        | succ k =>
          simp only [List.getD_cons_zero, List.getD_cons_succ]
          exact le_trans (not_lt.1 hlt) (ih hxs k (by simpa using hj))

lemma nnFinish_of_argmin {s : List ℚ} {i : ℕ} (h : argminList s = some i) :
    nnFinish s = .ok (Real.sqrt ((s.getD i 0 : ℚ) : ℝ), i) := by
  rw [nnFinish, h]

lemma nnFinish_of_nil : nnFinish [] =
    .error (.valueError "attempt to get argmin of an empty sequence") := by
  rw [nnFinish, (argminList_eq_none_iff []).2 rfl]

lemma nnFinish_isOk_iff (s : List ℚ) : (nnFinish s).isOk = true ↔ s ≠ [] := by
  cases h : argminList s with
  | none =>
    rw [nnFinish, h]
    simp [Except.isOk, Except.toBool, (argminList_eq_none_iff s).1 h]
  | some i =>
    rw [nnFinish_of_argmin h]
    have : s ≠ [] := by
      intro h0
      rw [(argminList_eq_none_iff s).2 h0] at h
      cases h
    simp [Except.isOk, Except.toBool, this]

/-- The exact condition under which `nn` succeeds, in the spec's terms:
2-d points, 1-d query, axis 0 or 1, shapes broadcast-compatible for the
chosen axis (equal lengths, or a length-1 side that broadcasts), and at
least one candidate along the chosen axis. -/
def nnSucceeds (arr arr0 : NDQ) (axis : ℤ) : Prop :=
  match arr, arr0 with
  | .d2 a, .d1 v =>
    (axis = 1 ∧ (a.ncol = v.length ∨ v.length = 1 ∨ a.ncol = 1) ∧ a.rows ≠ []) ∨
    (axis = 0 ∧ (a.rows.length = v.length ∨ v.length = 1 ∨ a.rows.length = 1) ∧
      a.ncol ≠ 0)
  | _, _ => False

lemma nn_axis1_eq (a : Arr2Q) (v : List ℚ) (d : Arr2Q)
    (h : sqDiffAxis1 a v = .ok d) :
    nn (.d2 a) (.d1 v) 1 = nnFinish (sumAxis1 d) := by
  simp [nn, h]

lemma nn_axis1_err (a : Arr2Q) (v : List ℚ) (e : PyErr)
    (h : sqDiffAxis1 a v = .error e) :
    nn (.d2 a) (.d1 v) 1 = .error e := by
  simp [nn, h]

lemma nn_axis0_eq (a : Arr2Q) (v : List ℚ) (d : Arr2Q)
    (h : sqDiffAxis0 a v = .ok d) :
    nn (.d2 a) (.d1 v) 0 = nnFinish (sumAxis0 d) := by
  simp [nn, h]

lemma nn_axis0_err (a : Arr2Q) (v : List ℚ) (e : PyErr)
    (h : sqDiffAxis0 a v = .error e) :
    nn (.d2 a) (.d1 v) 0 = .error e := by
  simp [nn, h]

/-- C6 (amended): `nn` succeeds exactly when `points` is 2-d,
`query_point` is 1-d, `axis` is 0 or 1, the shapes are
broadcast-compatible for the chosen axis, and the candidate list along
the chosen axis is nonempty; it raises in every other case (the `ndim`
and axis `ValueError`s of the source, the broadcast `ValueError` of the
subtraction, or the `argmin`-of-empty `ValueError`). -/
theorem nn_succeeds_iff (arr arr0 : NDQ) (axis : ℤ) :
    (nn arr arr0 axis).isOk = true ↔ nnSucceeds arr arr0 axis := by
  cases arr with
  | d1 l => simp [nn, nnSucceeds, Except.isOk, Except.toBool]
  | d2 a =>
    cases arr0 with
    | d2 b => simp [nn, nnSucceeds, Except.isOk, Except.toBool]
    | d1 v =>
      by_cases hax1 : axis = 1
      · subst hax1
        have hRHS : nnSucceeds (.d2 a) (.d1 v) 1 ↔
            ((a.ncol = v.length ∨ v.length = 1 ∨ a.ncol = 1) ∧ a.rows ≠ []) := by
          norm_num [nnSucceeds]
        rw [hRHS]
        by_cases h1 : a.ncol = v.length
        · rw [nn_axis1_eq a v
            ⟨a.ncol, a.rows.map (fun r => List.zipWith (fun x y => (x - y) ^ 2) r v)⟩
            (by rw [sqDiffAxis1, if_pos h1]), nnFinish_isOk_iff]
          simp [sumAxis1, h1]
        · by_cases h2 : v.length = 1
          · rw [nn_axis1_eq a v
              ⟨a.ncol, a.rows.map (fun r => r.map (fun x => (x - v.headD 0) ^ 2))⟩
              (by rw [sqDiffAxis1, if_neg h1, if_pos h2]), nnFinish_isOk_iff]
            simp [sumAxis1, h2]
          · by_cases h3 : a.ncol = 1
            · rw [nn_axis1_eq a v
                ⟨v.length, a.rows.map (fun r => v.map (fun y => (r.headD 0 - y) ^ 2))⟩
                (by rw [sqDiffAxis1, if_neg h1, if_neg h2, if_pos h3]), nnFinish_isOk_iff]
              simp [sumAxis1, h3]
            · rw [nn_axis1_err a v _
                (by rw [sqDiffAxis1, if_neg h1, if_neg h2, if_neg h3])]
              simp [Except.isOk, Except.toBool, h1, h2, h3]
      · by_cases hax0 : axis = 0
        · subst hax0
          have hRHS : nnSucceeds (.d2 a) (.d1 v) 0 ↔
              ((a.rows.length = v.length ∨ v.length = 1 ∨ a.rows.length = 1) ∧
                a.ncol ≠ 0) := by
            norm_num [nnSucceeds]
          rw [hRHS]
          by_cases h1 : a.rows.length = v.length
          · rw [nn_axis0_eq a v
              ⟨a.ncol, List.zipWith (fun r y => r.map (fun x => (x - y) ^ 2)) a.rows v⟩
              (by rw [sqDiffAxis0, if_pos h1]), nnFinish_isOk_iff]
            simp [sumAxis0, h1, List.range_eq_nil]
          · by_cases h2 : v.length = 1
            · rw [nn_axis0_eq a v
                ⟨a.ncol, a.rows.map (fun r => r.map (fun x => (x - v.headD 0) ^ 2))⟩
                (by rw [sqDiffAxis0, if_neg h1, if_pos h2]), nnFinish_isOk_iff]
              simp [sumAxis0, h2, List.range_eq_nil]
            · by_cases h3 : a.rows.length = 1
              · rw [nn_axis0_eq a v
                  ⟨a.ncol, v.map (fun y => (a.rows.headD []).map (fun x => (x - y) ^ 2))⟩
                  (by rw [sqDiffAxis0, if_neg h1, if_neg h2, if_pos h3]), nnFinish_isOk_iff]
                simp [sumAxis0, h3, List.range_eq_nil]
              · rw [nn_axis0_err a v _
                  (by rw [sqDiffAxis0, if_neg h1, if_neg h2, if_neg h3])]
                simp [Except.isOk, Except.toBool, h1, h2, h3]
        · rw [show nn (.d2 a) (.d1 v) axis
              = .error (.valueError "`axis` must be 0 or 1.") from by
            simp [nn, hax1, hax0]]
          simp [nnSucceeds, Except.isOk, Except.toBool, hax1, hax0]

/-- Counterexample to C6 as stated: `points = [[0, 0]]` is 2-d,
`query_point = [0, 0, 0]` is 1-d and `axis = 1` is valid, yet `nn`
raises the broadcast `ValueError` because the query length 3 does not
match the candidate length 2 — so the listed conditions are not the
only ways `nn` can raise. -/
theorem nn_valid_shapes_still_raises :
    nn (.d2 ⟨2, [[0, 0]]⟩) (.d1 [0, 0, 0]) 1
      = .error (.valueError "operands could not be broadcast together") := by
  have h : sqDiffAxis1 ⟨2, [[0, 0]]⟩ [0, 0, 0]
      = .error (.valueError "operands could not be broadcast together") := by
    rw [sqDiffAxis1]
    norm_num
  exact nn_axis1_err _ _ _ h

lemma sumAxis1_mk (c : ℕ) (rs : List (List ℚ)) :
    sumAxis1 ⟨c, rs⟩ = rs.map (fun r => r.sum) := rfl

lemma sumAxis0_mk (c : ℕ) (rs : List (List ℚ)) :
    sumAxis0 ⟨c, rs⟩ = (List.range c).map (fun j => (rs.map (fun r => r.getD j 0)).sum) := rfl

lemma zipWith_congr_left {α β γ : Type} (f g : α → β → γ) (l : List α)
    (l' : List β) (h : ∀ a ∈ l, ∀ b, f a b = g a b) :
    List.zipWith f l l' = List.zipWith g l l' := by
  induction l generalizing l' with
  | nil => simp
  | cons x xs ih =>
    cases l' with
    | nil => simp
    | cons y ys =>
      simp only [List.zipWith_cons_cons]
      rw [h x (List.mem_cons_self _ _) y,
        ih ys (fun a ha b => h a (List.mem_cons_of_mem _ ha) b)]

lemma nnFinish_spec (cands : List (List ℚ)) (v : List ℚ) (hne : cands ≠ []) :
    ∃ i, nnFinish (cands.map (fun c => sqDist c v))
        = .ok (Real.sqrt ((sqDist (cands.getD i []) v : ℚ) : ℝ), i) ∧
      i < cands.length ∧
      ∀ j < cands.length,
        sqDist (cands.getD i []) v ≤ sqDist (cands.getD j []) v := by
  have hsne : cands.map (fun c => sqDist c v) ≠ [] := by
    simpa using hne
  cases hi : argminList (cands.map (fun c => sqDist c v)) with
  | none => exact absurd ((argminList_eq_none_iff _).1 hi) hsne
  | some i =>
    have hilt : i < (cands.map (fun c => sqDist c v)).length :=
      argminList_lt_length hi
    have hilen : i < cands.length := by simpa using hilt
    refine ⟨i, ?_, hilen, ?_⟩
    · rw [nnFinish_of_argmin hi,
        getD_map_lt (fun c => sqDist c v) cands i hilen 0 []]
    · intro j hj
      have hm := argminList_is_min hi j (by simpa using hj)
      rwa [getD_map_lt (fun c => sqDist c v) cands i hilen 0 [],
        getD_map_lt (fun c => sqDist c v) cands j hj 0 []] at hm

/-- C5: for a 2-d points array and a 1-d query of matching length, with
axis 0 or 1 and at least one candidate, `nn` returns the square root of
the minimum squared Euclidean distance between the query and any
candidate (row for `axis = 1`, column for `axis = 0`) together with the
index of a minimizing candidate. -/
theorem nn_returns_sqrt_of_min_distance (a : Arr2Q) (v : List ℚ) (axis : ℤ)
    (hax : axis = 0 ∨ axis = 1)
    (hrect : ∀ r ∈ a.rows, r.length = a.ncol)
    (hlen : v.length = if axis = 1 then a.ncol else a.rows.length)
    (hne : nnCandidates a axis ≠ []) :
    ∃ i, nn (.d2 a) (.d1 v) axis
        = .ok (Real.sqrt ((sqDist ((nnCandidates a axis).getD i []) v : ℚ) : ℝ), i) ∧
      i < (nnCandidates a axis).length ∧
      ∀ j < (nnCandidates a axis).length,
        sqDist ((nnCandidates a axis).getD i []) v
          ≤ sqDist ((nnCandidates a axis).getD j []) v := by
  rcases hax with rfl | rfl
  · have hv : a.rows.length = v.length := by
      simpa using hlen.symm
    have hcand : nnCandidates a 0 = a.cols := by
      simp [nnCandidates]
    rw [hcand] at hne ⊢
    have hd : sqDiffAxis0 a v
        = .ok ⟨a.ncol, List.zipWith (fun r y => r.map (fun x => (x - y) ^ 2)) a.rows v⟩ := by
      rw [sqDiffAxis0, if_pos hv]
    rw [nn_axis0_eq a v _ hd, sumAxis0_mk]
    have hs : (List.range a.ncol).map
          (fun j => ((List.zipWith (fun r y => r.map (fun x => (x - y) ^ 2)) a.rows v).map
            (fun r => r.getD j 0)).sum)
        = a.cols.map (fun c => sqDist c v) := by
      rw [Arr2Q.cols, List.map_map]
      refine List.map_congr_left ?_
      intro j hj
      have hjlt : j < a.ncol := List.mem_range.1 hj
      show _ = sqDist (a.col j) v
      rw [List.map_zipWith, sqDist, Arr2Q.col, List.zipWith_map_left]
      congr 1
      apply zipWith_congr_left
      intro r hr y
      exact getD_map_lt (fun x => (x - y) ^ 2) r j (hrect r hr ▸ hjlt) 0 0
    rw [hs]
    exact nnFinish_spec a.cols v hne
  · have hv : a.ncol = v.length := by
      simpa using hlen.symm
    have hcand : nnCandidates a 1 = a.rows := by
      simp [nnCandidates]
    rw [hcand] at hne ⊢
    have hd : sqDiffAxis1 a v
        = .ok ⟨a.ncol, a.rows.map (fun r => List.zipWith (fun x y => (x - y) ^ 2) r v)⟩ := by
      rw [sqDiffAxis1, if_pos hv]
    rw [nn_axis1_eq a v _ hd, sumAxis1_mk, List.map_map]
    exact nnFinish_spec a.rows v hne

/-- Witness for C5 at the spec's example:
`nn([[0,0],[3,4],[1,1]], [0,0], axis=1)` — candidate 0 is the query
itself, so the minimum squared distance is 0 at index 0. -/
theorem nn_returns_sqrt_of_min_distance_witness :
    ∃ i, nn (.d2 ⟨2, [[0, 0], [3, 4], [1, 1]]⟩) (.d1 [0, 0]) 1
        = .ok (Real.sqrt ((sqDist ((nnCandidates ⟨2, [[0, 0], [3, 4], [1, 1]]⟩ 1).getD i []) [0, 0] : ℚ) : ℝ), i) ∧
      i < (nnCandidates ⟨2, [[0, 0], [3, 4], [1, 1]]⟩ 1).length ∧
      ∀ j < (nnCandidates ⟨2, [[0, 0], [3, 4], [1, 1]]⟩ 1).length,
        sqDist ((nnCandidates ⟨2, [[0, 0], [3, 4], [1, 1]]⟩ 1).getD i []) [0, 0]
          ≤ sqDist ((nnCandidates ⟨2, [[0, 0], [3, 4], [1, 1]]⟩ 1).getD j []) [0, 0] :=
  nn_returns_sqrt_of_min_distance ⟨2, [[0, 0], [3, 4], [1, 1]]⟩ [0, 0] 1
    (Or.inr rfl) (by intro r hr; fin_cases hr <;> rfl) (by simp)
    (by simp [nnCandidates])
